import Mathlib

/-!
Verification of the OpenAPI generation pipeline of `src/scripts/generate-openapi.ts`
(repository `openintentsframework/oif-specs`).

The script consumes a JSON-Schema `definitions` map produced by
`typescript-json-schema`, converts each definition with `convertSchemaObject`,
applies name-keyed special handling inside `convertJsonSchemaToOpenApi`
(the long `if/else if` chain on the definition name), and merges the result
into a fixed OpenAPI template (`openApiSpec`) whose two operations
(`POST /v1/quote`, `POST /v1/intent`) carry fixed `$ref` bindings.

Shallow embedding notes:
* A raw/converted schema node is modeled by `JSchema`, a record of the keys the
  script reads or writes (`type`, `description`, `pattern`, `enum`, `properties`,
  `required`, `items`, `$ref`, `anyOf`, `oneOf`, `allOf`, `additionalProperties`).
  Key presence is an `Option`-style wrapper; `Object.keys(schema).length` is the
  number of present keys (`numKeys`).  Mutual auxiliary inductives are used for
  the recursive positions so that structural recursion and equality proofs stay
  elementary.
* JavaScript truthiness on strings (`if (schema.type)`) is `truthyOS`:
  a present, non-empty string.  Arrays and objects are always truthy, so for
  them presence alone is tested, and `required` additionally checks `length > 0`
  exactly as the source does.
* `schema.$ref.replace('#/definitions/', '')` replaces the first occurrence of
  the pattern; `jsReplaceEmpty` implements exactly that on the character list.
* Setting an object key to `undefined` (the `additionalProperties === false`
  case and `signature.description = undefined`) is modeled as the key being
  absent, which is how the value is observed by the rest of the script and by
  the YAML serializer.
-/

mutual
inductive JSchema : Type where
  | mk (ty : Option String) (descr : Option String) (pat : Option String)
       (enm : Option (List String)) (props : OptProps) (req : Option (List String))
       (items : OptSchema) (ref : Option String) (anyOf : OptSList)
       (oneOf : OptSList) (allOf : OptSList) (addProps : OptAP)
inductive OptSchema : Type where
  | none | some (s : JSchema)
inductive OptProps : Type where
  | none | some (l : Props)
inductive Props : Type where
  | nil | cons (k : String) (v : JSchema) (rest : Props)
inductive OptSList : Type where
  | none | some (l : SList)
inductive SList : Type where
  | nil | cons (s : JSchema) (rest : SList)
inductive OptAP : Type where
  | none | bool (b : Bool) | schema (s : JSchema)
end

def JSchema.ty : JSchema → Option String
  | .mk t _ _ _ _ _ _ _ _ _ _ _ => t

def JSchema.descr : JSchema → Option String
  | .mk _ d _ _ _ _ _ _ _ _ _ _ => d

def JSchema.pat : JSchema → Option String
  | .mk _ _ p _ _ _ _ _ _ _ _ _ => p

def JSchema.enm : JSchema → Option (List String)
  | .mk _ _ _ e _ _ _ _ _ _ _ _ => e

def JSchema.props : JSchema → OptProps
  | .mk _ _ _ _ pr _ _ _ _ _ _ _ => pr

def JSchema.req : JSchema → Option (List String)
  | .mk _ _ _ _ _ rq _ _ _ _ _ _ => rq

def JSchema.items : JSchema → OptSchema
  | .mk _ _ _ _ _ _ it _ _ _ _ _ => it

def JSchema.ref : JSchema → Option String
  | .mk _ _ _ _ _ _ _ rf _ _ _ _ => rf

def JSchema.anyOf : JSchema → OptSList
  | .mk _ _ _ _ _ _ _ _ ao _ _ _ => ao

def JSchema.oneOf : JSchema → OptSList
  | .mk _ _ _ _ _ _ _ _ _ oo _ _ => oo

def JSchema.allOf : JSchema → OptSList
  | .mk _ _ _ _ _ _ _ _ _ _ alo _ => alo

def JSchema.addProps : JSchema → OptAP
  | .mk _ _ _ _ _ _ _ _ _ _ _ ap => ap

/-- JavaScript truthiness of an optional string value: present and non-empty. -/
def truthyOS : Option String → Bool
  | Option.none => false
  | Option.some s => !(s == "")

/-- `Object.keys(schema).length` over the modeled key set. -/
def numKeys : JSchema → Nat
  | .mk ty d p e pr rq it rf ao oo alo ap =>
    (if ty.isSome then 1 else 0) + (if d.isSome then 1 else 0) + (if p.isSome then 1 else 0)
    + (if e.isSome then 1 else 0) + (match pr with | .none => 0 | .some _ => 1)
    + (if rq.isSome then 1 else 0) + (match it with | .none => 0 | .some _ => 1)
    + (if rf.isSome then 1 else 0) + (match ao with | .none => 0 | .some _ => 1)
    + (match oo with | .none => 0 | .some _ => 1) + (match alo with | .none => 0 | .some _ => 1)
    + (match ap with | .none => 0 | _ => 1)

/-- Remove the first occurrence of `pat` from `l`, like JS `String.prototype.replace`
with a string pattern and an empty replacement. -/
def removeFirstOcc : List Char → List Char → List Char
  | [], _ => []
  | c :: rest, pat =>
    if pat.isPrefixOf (c :: rest) then (c :: rest).drop pat.length
    else c :: removeFirstOcc rest pat

/-- JS `s.replace(pat, '')` (first occurrence only). -/
def jsReplaceEmpty (s pat : String) : String :=
  String.mk (removeFirstOcc s.data pat.data)

/-- The pure-reference schema `{'$ref': '#/components/schemas/NAME'}`. -/
def refComponents (n : String) : JSchema :=
  JSchema.mk Option.none Option.none Option.none Option.none OptProps.none Option.none
    OptSchema.none (Option.some ("#/components/schemas/" ++ n))
    OptSList.none OptSList.none OptSList.none OptAP.none

mutual
/-- `convertSchemaObject` from `generate-openapi.ts` (lines 318-375).
Copies `type`/`description`/`pattern`/`enum`, recursively converts
`properties`, copies a non-empty `required`, converts `items` when
`type === 'array'`, early-returns a rewritten pure `$ref` object when `$ref`
is truthy, converts `anyOf`/`oneOf`/`allOf` element-wise, sets
`additionalProperties: true` when the raw node's only key is `type: 'object'`,
and maps a raw `additionalProperties` of `false`/`true`/schema to
absent/`true`/converted schema. -/
def convertSchemaObject : JSchema → JSchema
  | .mk ty d p e pr rq it rf ao oo alo ap =>
    if truthyOS rf then refComponents (jsReplaceEmpty (rf.getD "") "#/definitions/")
    else
      JSchema.mk (if truthyOS ty then ty else Option.none)
        (if truthyOS d then d else Option.none)
        (if truthyOS p then p else Option.none)
        e (convOptProps pr)
        (match rq with
          | Option.some l => if 0 < l.length then Option.some l else Option.none
          | Option.none => Option.none)
        (if ty = Option.some "array" then convOptSchema it else OptSchema.none)
        Option.none (convOptSList ao) (convOptSList oo) (convOptSList alo)
        (convAP
          (decide (ty = Option.some "object"
            ∧ numKeys (.mk ty d p e pr rq it rf ao oo alo ap) = 1))
          ap)

/-- The `additionalProperties` assignment of `convertSchemaObject`: `heur` is
whether the open-map heuristic (`type === 'object'` and exactly one key) fired;
a raw value of `false` becomes `undefined`, `true` stays, a schema is converted. -/
def convAP : Bool → OptAP → OptAP
  | heur, OptAP.none => if heur then OptAP.bool true else OptAP.none
  | _, OptAP.bool b => if b then OptAP.bool true else OptAP.none
  | _, OptAP.schema x => OptAP.schema (convertSchemaObject x)

def convOptProps : OptProps → OptProps
  | OptProps.none => OptProps.none
  | OptProps.some l => OptProps.some (convProps l)

def convProps : Props → Props
  | Props.nil => Props.nil
  | Props.cons k v rest => Props.cons k (convertSchemaObject v) (convProps rest)

def convOptSchema : OptSchema → OptSchema
  | OptSchema.none => OptSchema.none
  | OptSchema.some s => OptSchema.some (convertSchemaObject s)

def convOptSList : OptSList → OptSList
  | OptSList.none => OptSList.none
  | OptSList.some l => OptSList.some (convSList l)

def convSList : SList → SList
  | SList.nil => SList.nil
  | SList.cons s rest => SList.cons (convertSchemaObject s) (convSList rest)
end

/-! ### Field updates used by the name-keyed special handling

The `if/else if` chain of `convertJsonSchemaToOpenApi` performs guarded
in-place updates on the converted schema: replacing a property by a `$ref`,
or setting `description`/`enum` on the schema or on one of its properties.
`updProps` applies an entry-wise update to the `properties` map when it is
present (the source guards each block with `if (convertedSchema.properties)`);
updating one named key is expressed with `setIf`/`modIf`, which leave every
other entry untouched and do nothing when the key is absent — exactly the
effect of the source's `if (convertedSchema.properties.X) ... = ...`. -/

def mapEntries (f : String → JSchema → JSchema) : Props → Props
  | Props.nil => Props.nil
  | Props.cons k v rest => Props.cons k (f k v) (mapEntries f rest)

def JSchema.updProps : JSchema → (String → JSchema → JSchema) → JSchema
  | .mk ty d p e OptProps.none rq it rf ao oo alo ap, _ =>
      .mk ty d p e OptProps.none rq it rf ao oo alo ap
  | .mk ty d p e (OptProps.some l) rq it rf ao oo alo ap, f =>
      .mk ty d p e (OptProps.some (mapEntries f l)) rq it rf ao oo alo ap

def JSchema.withDescr : JSchema → Option String → JSchema
  | .mk ty _ p e pr rq it rf ao oo alo ap, d => .mk ty d p e pr rq it rf ao oo alo ap

def JSchema.withEnum : JSchema → Option (List String) → JSchema
  | .mk ty d p _ pr rq it rf ao oo alo ap, e => .mk ty d p e pr rq it rf ao oo alo ap

def JSchema.hasProps (c : JSchema) : Bool :=
  match c.props with
  | OptProps.none => false
  | OptProps.some _ => true

def setIf (n : String) (v : JSchema) : String → JSchema → JSchema :=
  fun k s => if k = n then v else s

def modIf (n : String) (g : JSchema → JSchema) : String → JSchema → JSchema :=
  fun k s => if k = n then g s else s

/-! ### The `schemaMapping` table and the name-keyed special handling -/

/-- `schemaMapping[name].description` (lines 15-58); only four entries carry
a description, every other entry has `description: undefined`. -/
def mappingDescription (name : String) : Option String :=
  if name = "Address" then Option.some "ERC-7930 interoperable address"
  else if name = "Amount" then
    Option.some "Integer encoded as a string to preserve precision (e.g., uint256)"
  else if name = "AssetLockReference" then
    Option.some "Reference to a lock in a locking system"
  else if name = "Eip712Order" then Option.some "EIP-712 typed data for execution"
  else Option.none

/-- `schemaMapping[name].openApiName`; no entry of the table sets it, so the
emitted component key is always the definition name itself. -/
def mappingOpenApiName (_name : String) : Option String := Option.none

def openApiNameOf (name : String) : String := (mappingOpenApiName name).getD name

/-- `if (mapping.description) convertedSchema.description = mapping.description`. -/
def applyMappingDescr (name : String) (c : JSchema) : JSchema :=
  if truthyOS (mappingDescription name) then c.withDescr (mappingDescription name) else c

def refAddress : JSchema := refComponents "Address"
def refAmount : JSchema := refComponents "Amount"
def refAssetLockReference : JSchema := refComponents "AssetLockReference"
def refQuotePreference : JSchema := refComponents "QuotePreference"

/-- The fixed literal emitted for the definition named `Address` (lines 163-167). -/
def addressSchemaLiteral : JSchema :=
  JSchema.mk (Option.some "string") (Option.some "ERC-7930 interoperable address")
    Option.none Option.none OptProps.none Option.none OptSchema.none Option.none
    OptSList.none OptSList.none OptSList.none OptAP.none

/-- The fixed literal emitted for the definition named `Amount` (lines 168-173). -/
def amountSchemaLiteral : JSchema :=
  JSchema.mk (Option.some "string")
    (Option.some "Integer encoded as a string to preserve precision (e.g., uint256)")
    (Option.some "^[0-9]+$") Option.none OptProps.none Option.none OptSchema.none Option.none
    OptSList.none OptSList.none OptSList.none OptAP.none

/-- The fixed literal emitted for the definition named `QuotePreference` (lines 233-237). -/
def quotePreferenceLiteral : JSchema :=
  JSchema.mk (Option.some "string") Option.none Option.none
    (Option.some ["price", "speed", "input-priority", "trust-minimization"])
    OptProps.none Option.none OptSchema.none Option.none
    OptSList.none OptSList.none OptSList.none OptAP.none

/-- The literal that replaces `QuoteDetails.properties.availableInputs` (lines 262-281). -/
def quoteDetailsAvailableInputs : JSchema :=
  JSchema.mk (Option.some "array") Option.none Option.none Option.none OptProps.none
    Option.none
    (OptSchema.some (JSchema.mk (Option.some "object") Option.none Option.none Option.none
      (OptProps.some (Props.cons "user" refAddress (Props.cons "asset" refAddress
        (Props.cons "amount" refAmount (Props.cons "lockType"
          (JSchema.mk (Option.some "string")
            (Option.some "If empty, the asset needs to be escrowed") Option.none
            (Option.some ["the-compact"]) OptProps.none Option.none OptSchema.none
            Option.none OptSList.none OptSList.none OptSList.none OptAP.none)
          Props.nil)))))
      (Option.some ["user", "asset", "amount"]) OptSchema.none Option.none
      OptSList.none OptSList.none OptSList.none OptAP.none))
    Option.none OptSList.none OptSList.none OptSList.none OptAP.none

def ovAssetLockReference (c : JSchema) : JSchema :=
  if c.hasProps then
    ((c.withDescr (Option.some "Reference to a lock in a locking system")).updProps
        (modIf "kind" (fun s => s.withEnum (Option.some ["the-compact", "rhinestone"])))).updProps
      (modIf "params" (fun s => s.withDescr (Option.some "Lock-specific parameters")))
  else c

def ovAvailableInput (c : JSchema) : JSchema :=
  (((c.updProps (setIf "user" refAddress)).updProps (setIf "asset" refAddress)).updProps
      (setIf "amount" refAmount)).updProps (setIf "lock" refAssetLockReference)

def ovRequestedOutput (c : JSchema) : JSchema :=
  (((c.updProps (setIf "receiver" refAddress)).updProps (setIf "asset" refAddress)).updProps
      (setIf "amount" refAmount)).updProps
    (modIf "calldata" (fun s =>
      s.withDescr (Option.some "Optional calldata describing how the receiver will consume the output")))

def ovRequestedOutputDetails (c : JSchema) : JSchema :=
  ((c.updProps (setIf "user" refAddress)).updProps (setIf "asset" refAddress)).updProps
    (setIf "amount" refAmount)

def ovGetQuoteRequest (c : JSchema) : JSchema :=
  (((c.updProps (setIf "user" refAddress)).updProps
      (modIf "availableInputs" (fun s =>
        s.withDescr (Option.some "Order of inputs is significant if preference is \x27input-priority\x27")))).updProps
    (modIf "minValidUntil" (fun s =>
      s.withDescr (Option.some "Minimum validity timestamp (seconds)")))).updProps
    (setIf "preference" refQuotePreference)

def ovEip712Order (c : JSchema) : JSchema :=
  c.updProps (setIf "domain" refAddress)

def ovQuoteDetails (c : JSchema) : JSchema :=
  c.updProps (setIf "availableInputs" quoteDetailsAvailableInputs)

def ovQuote (c : JSchema) : JSchema :=
  (c.updProps (modIf "validUntil" (fun s =>
      s.withDescr (Option.some "Quote validity timestamp (seconds)")))).updProps
    (modIf "eta" (fun s => s.withDescr (Option.some "Estimated time of arrival (seconds)")))

def ovIntentRequest (c : JSchema) : JSchema :=
  (c.updProps (modIf "order" (fun s =>
      s.withDescr (Option.some "EIP-712 typed data for a gasless cross-chain order")))).updProps
    (modIf "signature" (fun s => s.withDescr Option.none))

def ovIntentResponse (c : JSchema) : JSchema :=
  c.updProps (modIf "orderId" (fun s =>
    s.withDescr (Option.some "Assigned order identifier if accepted")))

/-- The `if/else if` chain on the definition name (lines 162-312). -/
def applyNameOverride (name : String) (c : JSchema) : JSchema :=
  if name = "Address" then addressSchemaLiteral
  else if name = "Amount" then amountSchemaLiteral
  else if name = "AssetLockReference" then ovAssetLockReference c
  else if name = "AvailableInput" then ovAvailableInput c
  else if name = "RequestedOutput" then ovRequestedOutput c
  else if name = "RequestedOutputDetails" then ovRequestedOutputDetails c
  else if name = "QuotePreference" then quotePreferenceLiteral
  else if name = "GetQuoteRequest" then ovGetQuoteRequest c
  else if name = "Eip712Order" then ovEip712Order c
  else if name = "QuoteDetails" then ovQuoteDetails c
  else if name = "Quote" then ovQuote c
  else if name = "IntentRequest" then ovIntentRequest c
  else if name = "IntentResponse" then ovIntentResponse c
  else c

/-- The per-type override step: the `mapping.description` assignment followed by
the name-keyed special handling. -/
def applyOverrides (name : String) (c : JSchema) : JSchema :=
  applyNameOverride name (applyMappingDescr name c)

/-- Processing of one `definitions` entry inside `convertJsonSchemaToOpenApi`. -/
def convertDefinition (name : String) (raw : JSchema) : JSchema :=
  applyOverrides name (convertSchemaObject raw)

/-- `convertJsonSchemaToOpenApi` (lines 143-316): every `definitions` entry is
converted and stored under `mapping.openApiName || name`. -/
def convertJsonSchemaToOpenApi (defs : List (String × JSchema)) : List (String × JSchema) :=
  defs.map (fun nd => (openApiNameOf nd.1, convertDefinition nd.1 nd.2))

/-! ### The fixed OpenAPI template and document assembly -/

structure Operation where
  path : String
  method : String
  requestRef : String
  responseRefs : List (String × String)

/-- The two operations of the `openApiSpec` template (lines 75-126) with their
`$ref` bindings; the `400`/`422` responses carry no schema. -/
def openApiOperations : List Operation :=
  [⟨"/v1/quote", "post", "#/components/schemas/GetQuoteRequest",
      [("200", "#/components/schemas/GetQuoteResponse")]⟩,
   ⟨"/v1/intent", "post", "#/components/schemas/IntentRequest",
      [("200", "#/components/schemas/IntentResponse")]⟩]

def operationRefs (op : Operation) : List String :=
  op.requestRef :: op.responseRefs.map (fun sr => sr.2)

structure OApiDocument where
  operations : List Operation
  componentSchemas : List (String × JSchema)

/-- `main` (lines 377-409): convert the definitions and merge them into the
template as `components.schemas`.  The script performs no validation of any
kind here; assembly is total. -/
def assembleDocument (defs : List (String × JSchema)) : OApiDocument :=
  ⟨openApiOperations, convertJsonSchemaToOpenApi defs⟩

mutual
/-- Every `$ref` string occurring anywhere inside a schema. -/
def refsOfSchema : JSchema → List String
  | .mk _ _ _ _ pr _ it rf ao oo alo ap =>
    (match rf with | Option.some r => [r] | Option.none => []) ++ refsOfOptProps pr
      ++ refsOfOptSchema it ++ refsOfOptSList ao ++ refsOfOptSList oo
      ++ refsOfOptSList alo ++ refsOfOptAP ap

def refsOfOptProps : OptProps → List String
  | OptProps.none => []
  | OptProps.some l => refsOfProps l

def refsOfProps : Props → List String
  | Props.nil => []
  | Props.cons _ v rest => refsOfSchema v ++ refsOfProps rest

def refsOfOptSchema : OptSchema → List String
  | OptSchema.none => []
  | OptSchema.some s => refsOfSchema s

def refsOfOptSList : OptSList → List String
  | OptSList.none => []
  | OptSList.some l => refsOfSList l

def refsOfSList : SList → List String
  | SList.nil => []
  | SList.cons s rest => refsOfSchema s ++ refsOfSList rest

def refsOfOptAP : OptAP → List String
  | OptAP.none => []
  | OptAP.bool _ => []
  | OptAP.schema s => refsOfSchema s
end

/-- All `$ref` strings of the assembled document: the fixed operation bindings
plus every reference inside the emitted component schemas. -/
def docRefs (d : OApiDocument) : List String :=
  (d.operations.map operationRefs).flatten
    ++ (d.componentSchemas.map (fun nd => refsOfSchema nd.2)).flatten

def componentKeys (d : OApiDocument) : List String := d.componentSchemas.map (fun nd => nd.1)

/-- `r` is a pointer to component `k` of the map with keys `ks`. -/
def resolvesIn (ks : List String) (r : String) : Prop :=
  ∃ k, k ∈ ks ∧ r = "#/components/schemas/" ++ k

/-- Every reference anywhere in the document resolves inside `components.schemas`. -/
def danglingFree (d : OApiDocument) : Prop :=
  ∀ r ∈ docRefs d, resolvesIn (componentKeys d) r

mutual
/-- The reference targets a raw schema contributes to the converted output:
the rewritten `$ref` when present (which short-circuits the node), otherwise
the targets of exactly the children `convertSchemaObject` recurses into. -/
def rawTargetsOfSchema : JSchema → List String
  | .mk ty _ _ _ pr _ it rf ao oo alo ap =>
    if truthyOS rf then [jsReplaceEmpty (rf.getD "") "#/definitions/"]
    else
      rawTargetsOfOptProps pr
        ++ (if ty = Option.some "array" then rawTargetsOfOptSchema it else [])
        ++ rawTargetsOfOptSList ao ++ rawTargetsOfOptSList oo ++ rawTargetsOfOptSList alo
        ++ rawTargetsOfOptAP ap

def rawTargetsOfOptProps : OptProps → List String
  | OptProps.none => []
  | OptProps.some l => rawTargetsOfProps l

def rawTargetsOfProps : Props → List String
  | Props.nil => []
  | Props.cons _ v rest => rawTargetsOfSchema v ++ rawTargetsOfProps rest

def rawTargetsOfOptSchema : OptSchema → List String
  | OptSchema.none => []
  | OptSchema.some s => rawTargetsOfSchema s

def rawTargetsOfOptSList : OptSList → List String
  | OptSList.none => []
  | OptSList.some l => rawTargetsOfSList l

def rawTargetsOfSList : SList → List String
  | SList.nil => []
  | SList.cons s rest => rawTargetsOfSchema s ++ rawTargetsOfSList rest

def rawTargetsOfOptAP : OptAP → List String
  | OptAP.none => []
  | OptAP.bool _ => []
  | OptAP.schema s => rawTargetsOfSchema s
end

/-- The component names referenced by the fixed operation bindings of the template. -/
def operationBoundNames : List String :=
  ["GetQuoteRequest", "GetQuoteResponse", "IntentRequest", "IntentResponse"]

/-- The component names the name-keyed special handling can introduce references to. -/
def overrideRefNames : List String :=
  ["Address", "Amount", "AssetLockReference", "QuotePreference"]

/-- Every reference target of every raw definition is itself a defined name. -/
def checkDefsClosed (defs : List (String × JSchema)) : Bool :=
  defs.all (fun nd => (rawTargetsOfSchema nd.2).all
    (fun t => decide (t ∈ defs.map (fun x => x.1))))

/-- The names bound by the fixed operations and the names the overrides
reference are all defined. -/
def checkRequiredPresent (defs : List (String × JSchema)) : Bool :=
  (operationBoundNames ++ overrideRefNames).all
    (fun n => decide (n ∈ defs.map (fun x => x.1)))

/-! ### Concrete raw inputs (as `typescript-json-schema` shapes them) -/

def emptySchema : JSchema :=
  JSchema.mk Option.none Option.none Option.none Option.none OptProps.none Option.none
    OptSchema.none Option.none OptSList.none OptSList.none OptSList.none OptAP.none

def leaf (ty d p : Option String) (e : Option (List String)) : JSchema :=
  JSchema.mk ty d p e OptProps.none Option.none OptSchema.none Option.none
    OptSList.none OptSList.none OptSList.none OptAP.none

def refD (n : String) : JSchema :=
  JSchema.mk Option.none Option.none Option.none Option.none OptProps.none Option.none
    OptSchema.none (Option.some ("#/definitions/" ++ n))
    OptSList.none OptSList.none OptSList.none OptAP.none

def objNode (pr : Props) (rq : List String) : JSchema :=
  JSchema.mk (Option.some "object") Option.none Option.none Option.none (OptProps.some pr)
    (Option.some rq) OptSchema.none Option.none OptSList.none OptSList.none OptSList.none
    OptAP.none

def arrNode (item : JSchema) : JSchema :=
  JSchema.mk (Option.some "array") Option.none Option.none Option.none OptProps.none
    Option.none (OptSchema.some item) Option.none OptSList.none OptSList.none OptSList.none
    OptAP.none

def rawAddress : JSchema :=
  leaf (Option.some "string") (Option.some "EIP-7930 interoperable address")
    (Option.some "^0x[a-fA-F0-9]+$") Option.none

def rawAmount : JSchema :=
  leaf (Option.some "string") Option.none (Option.some "^[0-9]+$") Option.none

def rawQuotePreference : JSchema :=
  leaf (Option.some "string") Option.none Option.none
    (Option.some ["price", "speed", "input-priority", "trust-minimization"])

def rawAssetLockReference : JSchema :=
  objNode (Props.cons "kind"
      (leaf (Option.some "string") Option.none Option.none
        (Option.some ["the-compact", "rhinestone"]))
      (Props.cons "params" emptySchema Props.nil)) ["kind"]

/-- The `AvailableInput` shape of the spec's Scenario A: four `$ref` properties,
`lock` optional. -/
def rawAvailableInput : JSchema :=
  objNode (Props.cons "user" (refD "Address") (Props.cons "asset" (refD "Address")
      (Props.cons "amount" (refD "Amount") (Props.cons "lock" (refD "AssetLockReference")
        Props.nil)))) ["user", "asset", "amount"]

def rawGetQuoteRequest : JSchema :=
  objNode (Props.cons "user" (refD "Address")
      (Props.cons "availableInputs" (arrNode (refD "AvailableInput"))
        (Props.cons "preference" (refD "QuotePreference")
          (Props.cons "minValidUntil" (leaf (Option.some "number") Option.none Option.none Option.none)
            Props.nil)))) ["user", "availableInputs"]

def rawQuote : JSchema :=
  objNode (Props.cons "validUntil" (leaf (Option.some "number") Option.none Option.none Option.none)
      (Props.cons "eta" (leaf (Option.some "number") Option.none Option.none Option.none)
        Props.nil)) ["validUntil"]

def rawGetQuoteResponse : JSchema :=
  objNode (Props.cons "quotes" (arrNode (refD "Quote")) Props.nil) ["quotes"]

def rawIntentRequest : JSchema :=
  objNode (Props.cons "order" emptySchema
      (Props.cons "signature" (leaf (Option.some "string") Option.none Option.none Option.none)
        Props.nil)) ["order", "signature"]

def rawIntentResponse : JSchema :=
  objNode (Props.cons "status" (leaf (Option.some "string") Option.none Option.none Option.none)
      (Props.cons "orderId" (leaf (Option.some "string") Option.none Option.none Option.none)
        Props.nil)) ["status"]

/-- A realistic extractor output covering every operation-bound name. -/
def defsSample : List (String × JSchema) :=
  [("Address", rawAddress), ("Amount", rawAmount),
   ("AssetLockReference", rawAssetLockReference), ("QuotePreference", rawQuotePreference),
   ("AvailableInput", rawAvailableInput), ("GetQuoteRequest", rawGetQuoteRequest),
   ("Quote", rawQuote), ("GetQuoteResponse", rawGetQuoteResponse),
   ("IntentRequest", rawIntentRequest), ("IntentResponse", rawIntentResponse)]

/-- `defsSample` with the `GetQuoteResponse` component removed. -/
def defsNoGetQuoteResponse : List (String × JSchema) :=
  [("Address", rawAddress), ("Amount", rawAmount),
   ("AssetLockReference", rawAssetLockReference), ("QuotePreference", rawQuotePreference),
   ("AvailableInput", rawAvailableInput), ("GetQuoteRequest", rawGetQuoteRequest),
   ("Quote", rawQuote),
   ("IntentRequest", rawIntentRequest), ("IntentResponse", rawIntentResponse)]

/-! ### References of a converted schema are exactly its rewritten raw targets -/

mutual
theorem refsConvSchema : ∀ s : JSchema,
    refsOfSchema (convertSchemaObject s)
      = (rawTargetsOfSchema s).map (fun t => "#/components/schemas/" ++ t)
  | .mk ty d p e pr rq it rf ao oo alo ap => by
    simp only [convertSchemaObject, rawTargetsOfSchema]
    by_cases h : truthyOS rf = true
    · simp [h, refsOfSchema, refComponents, refsOfOptProps, refsOfOptSchema,
        refsOfOptSList, refsOfOptAP]
    · simp only [h, if_false, Bool.false_eq_true, refsOfSchema, List.map_append,
        List.nil_append]
      rw [refsConvOptProps pr, refsConvOptSList ao, refsConvOptSList oo,
        refsConvOptSList alo, refsConvAP _ ap]
      by_cases hty : ty = Option.some "array"
      · simp [hty, refsConvOptSchema it]
      · simp [hty, refsOfOptSchema]

theorem refsConvOptProps : ∀ pr : OptProps,
    refsOfOptProps (convOptProps pr)
      = (rawTargetsOfOptProps pr).map (fun t => "#/components/schemas/" ++ t)
  | OptProps.none => by simp [convOptProps, refsOfOptProps, rawTargetsOfOptProps]
  | OptProps.some l => by
    simp only [convOptProps, refsOfOptProps, rawTargetsOfOptProps]
    exact refsConvProps l

theorem refsConvProps : ∀ l : Props,
    refsOfProps (convProps l)
      = (rawTargetsOfProps l).map (fun t => "#/components/schemas/" ++ t)
  | Props.nil => by simp [convProps, refsOfProps, rawTargetsOfProps]
  | Props.cons k v rest => by
    simp only [convProps, refsOfProps, rawTargetsOfProps, List.map_append]
    rw [refsConvSchema v, refsConvProps rest]

theorem refsConvOptSchema : ∀ o : OptSchema,
    refsOfOptSchema (convOptSchema o)
      = (rawTargetsOfOptSchema o).map (fun t => "#/components/schemas/" ++ t)
  | OptSchema.none => by simp [convOptSchema, refsOfOptSchema, rawTargetsOfOptSchema]
  | OptSchema.some s => by
    simp only [convOptSchema, refsOfOptSchema, rawTargetsOfOptSchema]
    exact refsConvSchema s

theorem refsConvOptSList : ∀ o : OptSList,
    refsOfOptSList (convOptSList o)
      = (rawTargetsOfOptSList o).map (fun t => "#/components/schemas/" ++ t)
  | OptSList.none => by simp [convOptSList, refsOfOptSList, rawTargetsOfOptSList]
  | OptSList.some l => by
    simp only [convOptSList, refsOfOptSList, rawTargetsOfOptSList]
    exact refsConvSList l

theorem refsConvSList : ∀ l : SList,
    refsOfSList (convSList l)
      = (rawTargetsOfSList l).map (fun t => "#/components/schemas/" ++ t)
  | SList.nil => by simp [convSList, refsOfSList, rawTargetsOfSList]
  | SList.cons s rest => by
    simp only [convSList, refsOfSList, rawTargetsOfSList, List.map_append]
    rw [refsConvSchema s, refsConvSList rest]

theorem refsConvAP : ∀ (heur : Bool) (ap : OptAP),
    refsOfOptAP (convAP heur ap)
      = (rawTargetsOfOptAP ap).map (fun t => "#/components/schemas/" ++ t)
  | heur, OptAP.none => by cases heur <;> simp [convAP, refsOfOptAP, rawTargetsOfOptAP]
  | _, OptAP.bool b => by cases b <;> simp [convAP, refsOfOptAP, rawTargetsOfOptAP]
  | _, OptAP.schema x => by
    simp only [convAP, refsOfOptAP, rawTargetsOfOptAP]
    exact refsConvSchema x
end

/-! ### Algebra of the in-place updates -/

theorem mapEntries_comp (f g : String → JSchema → JSchema) : ∀ l : Props,
    mapEntries f (mapEntries g l) = mapEntries (fun k s => f k (g k s)) l
  | Props.nil => rfl
  | Props.cons k v rest => by
    simp only [mapEntries]
    exact congrArg _ (mapEntries_comp f g rest)

theorem mapEntries_congr {f g : String → JSchema → JSchema}
    (h : ∀ k s, f k s = g k s) : ∀ l : Props, mapEntries f l = mapEntries g l
  | Props.nil => rfl
  | Props.cons k v rest => by
    simp only [mapEntries, h k v]
    exact congrArg _ (mapEntries_congr h rest)

theorem updProps_updProps (c : JSchema) (f g : String → JSchema → JSchema) :
    (c.updProps g).updProps f = c.updProps (fun k s => f k (g k s)) := by
  cases c with
  | mk ty d p e pr rq it rf ao oo alo ap =>
    cases pr <;> simp [JSchema.updProps, mapEntries_comp]

theorem updProps_congr {f g : String → JSchema → JSchema} (c : JSchema)
    (h : ∀ k s, f k s = g k s) : c.updProps f = c.updProps g := by
  cases c with
  | mk ty d p e pr rq it rf ao oo alo ap =>
    cases pr <;> simp [JSchema.updProps, mapEntries_congr h]

theorem withDescr_updProps (c : JSchema) (f : String → JSchema → JSchema) (d : Option String) :
    (c.updProps f).withDescr d = (c.withDescr d).updProps f := by
  cases c with
  | mk ty d0 p e pr rq it rf ao oo alo ap =>
    cases pr <;> rfl

theorem withDescr_withDescr (c : JSchema) (d1 d2 : Option String) :
    (c.withDescr d1).withDescr d2 = c.withDescr d2 := by
  cases c; rfl

theorem hasProps_updProps (c : JSchema) (f : String → JSchema → JSchema) :
    (c.updProps f).hasProps = c.hasProps := by
  cases c with
  | mk ty d p e pr rq it rf ao oo alo ap =>
    cases pr <;> rfl

theorem hasProps_withDescr (c : JSchema) (d : Option String) :
    (c.withDescr d).hasProps = c.hasProps := by
  cases c; rfl

theorem refsOfSchema_withDescr (c : JSchema) (d : Option String) :
    refsOfSchema (c.withDescr d) = refsOfSchema c := by
  cases c; rfl

theorem refsOfSchema_withEnum (c : JSchema) (e : Option (List String)) :
    refsOfSchema (c.withEnum e) = refsOfSchema c := by
  cases c; rfl

/-! ### References introduced by the name-keyed special handling -/

/-- Pointers the override chain may introduce. -/
def csOverrideRefs : List String :=
  overrideRefNames.map (fun n => "#/components/schemas/" ++ n)

/-- Every reference of the updated schema is a reference of the original or an
override-introduced pointer. -/
def refsBound (c c2 : JSchema) : Prop :=
  ∀ r ∈ refsOfSchema c2, r ∈ refsOfSchema c ∨ r ∈ csOverrideRefs

theorem refsBound_refl (c : JSchema) : refsBound c c := fun _ hr => Or.inl hr

theorem refsBound_trans {a b c : JSchema} (h1 : refsBound a b) (h2 : refsBound b c) :
    refsBound a c := by
  intro r hr
  rcases h2 r hr with h | h
  · exact h1 r h
  · exact Or.inr h

theorem refsOfProps_mapEntries {f : String → JSchema → JSchema}
    (hf : ∀ k s, ∀ r ∈ refsOfSchema (f k s), r ∈ refsOfSchema s ∨ r ∈ csOverrideRefs) :
    ∀ l : Props, ∀ r ∈ refsOfProps (mapEntries f l), r ∈ refsOfProps l ∨ r ∈ csOverrideRefs
  | Props.nil => by intro r hr; exact absurd hr (by simp [mapEntries, refsOfProps])
  | Props.cons k v rest => by
    intro r hr
    simp only [mapEntries, refsOfProps, List.mem_append] at hr ⊢
    rcases hr with hr | hr
    · rcases hf k v r hr with h | h
      · exact Or.inl (Or.inl h)
      · exact Or.inr h
    · rcases refsOfProps_mapEntries hf rest r hr with h | h
      · exact Or.inl (Or.inr h)
      · exact Or.inr h

theorem refsBound_updProps {f : String → JSchema → JSchema}
    (hf : ∀ k s, ∀ r ∈ refsOfSchema (f k s), r ∈ refsOfSchema s ∨ r ∈ csOverrideRefs)
    (c : JSchema) : refsBound c (c.updProps f) := by
  cases c with
  | mk ty d p e pr rq it rf ao oo alo ap =>
    cases pr with
    | none => exact refsBound_refl _
    | some l =>
      intro r hr
      simp only [JSchema.updProps, refsOfSchema, refsOfOptProps, List.mem_append] at hr ⊢
      have key : r ∈ refsOfProps (mapEntries f l) → r ∈ refsOfProps l ∨ r ∈ csOverrideRefs :=
        refsOfProps_mapEntries hf l r
      tauto

theorem refsOfSchema_refComponents (n : String) :
    refsOfSchema (refComponents n) = ["#/components/schemas/" ++ n] := rfl

theorem entry_setIf_ref (n m : String)
    (hm : ("#/components/schemas/" ++ m) ∈ csOverrideRefs) :
    ∀ k s, ∀ r ∈ refsOfSchema (setIf n (refComponents m) k s),
      r ∈ refsOfSchema s ∨ r ∈ csOverrideRefs := by
  intro k s r hr
  unfold setIf at hr
  by_cases hk : k = n
  · rw [if_pos hk, refsOfSchema_refComponents, List.mem_singleton] at hr
    subst hr
    exact Or.inr hm
  · rw [if_neg hk] at hr
    exact Or.inl hr

theorem entry_modIf_descr (n : String) (d : Option String) :
    ∀ k s, ∀ r ∈ refsOfSchema (modIf n (fun s => s.withDescr d) k s),
      r ∈ refsOfSchema s ∨ r ∈ csOverrideRefs := by
  intro k s r hr
  unfold modIf at hr
  by_cases hk : k = n
  · rw [if_pos hk, refsOfSchema_withDescr] at hr
    exact Or.inl hr
  · rw [if_neg hk] at hr
    exact Or.inl hr

theorem entry_modIf_enum (n : String) (e : Option (List String)) :
    ∀ k s, ∀ r ∈ refsOfSchema (modIf n (fun s => s.withEnum e) k s),
      r ∈ refsOfSchema s ∨ r ∈ csOverrideRefs := by
  intro k s r hr
  unfold modIf at hr
  by_cases hk : k = n
  · rw [if_pos hk, refsOfSchema_withEnum] at hr
    exact Or.inl hr
  · rw [if_neg hk] at hr
    exact Or.inl hr

theorem refsOfSchema_qdai :
    refsOfSchema quoteDetailsAvailableInputs
      = ["#/components/schemas/Address", "#/components/schemas/Address",
         "#/components/schemas/Amount"] := rfl

theorem entry_setIf_qdai :
    ∀ k s, ∀ r ∈ refsOfSchema (setIf "availableInputs" quoteDetailsAvailableInputs k s),
      r ∈ refsOfSchema s ∨ r ∈ csOverrideRefs := by
  intro k s r hr
  unfold setIf at hr
  by_cases hk : k = "availableInputs"
  · rw [if_pos hk, refsOfSchema_qdai] at hr
    simp only [List.mem_cons, List.not_mem_nil, or_false] at hr
    refine Or.inr ?_
    rcases hr with h | h | h <;> subst h <;> simp [csOverrideRefs, overrideRefNames]
  · rw [if_neg hk] at hr
    exact Or.inl hr

theorem refsBound_withDescr (c : JSchema) (d : Option String) :
    refsBound c (c.withDescr d) := by
  intro r hr
  rw [refsOfSchema_withDescr] at hr
  exact Or.inl hr

theorem refsBound_ovAssetLockReference (c : JSchema) :
    refsBound c (ovAssetLockReference c) := by
  unfold ovAssetLockReference
  by_cases h : c.hasProps = true
  · rw [if_pos h]
    refine refsBound_trans
      (refsBound_withDescr c (Option.some "Reference to a lock in a locking system")) ?_
    refine refsBound_trans (refsBound_updProps
      (entry_modIf_enum "kind" (Option.some ["the-compact", "rhinestone"])) _) ?_
    exact refsBound_updProps
      (entry_modIf_descr "params" (Option.some "Lock-specific parameters")) _
  · rw [if_neg h]
    exact refsBound_refl c

theorem refsBound_ovAvailableInput (c : JSchema) :
    refsBound c (ovAvailableInput c) := by
  unfold ovAvailableInput refAddress refAmount refAssetLockReference
  refine refsBound_trans (refsBound_updProps
    (entry_setIf_ref "user" "Address" (by simp [csOverrideRefs, overrideRefNames])) c) ?_
  refine refsBound_trans (refsBound_updProps
    (entry_setIf_ref "asset" "Address" (by simp [csOverrideRefs, overrideRefNames])) _) ?_
  refine refsBound_trans (refsBound_updProps
    (entry_setIf_ref "amount" "Amount" (by simp [csOverrideRefs, overrideRefNames])) _) ?_
  exact refsBound_updProps
    (entry_setIf_ref "lock" "AssetLockReference" (by simp [csOverrideRefs, overrideRefNames])) _

theorem refsBound_ovRequestedOutput (c : JSchema) :
    refsBound c (ovRequestedOutput c) := by
  unfold ovRequestedOutput refAddress refAmount
  refine refsBound_trans (refsBound_updProps
    (entry_setIf_ref "receiver" "Address" (by simp [csOverrideRefs, overrideRefNames])) c) ?_
  refine refsBound_trans (refsBound_updProps
    (entry_setIf_ref "asset" "Address" (by simp [csOverrideRefs, overrideRefNames])) _) ?_
  refine refsBound_trans (refsBound_updProps
    (entry_setIf_ref "amount" "Amount" (by simp [csOverrideRefs, overrideRefNames])) _) ?_
  exact refsBound_updProps (entry_modIf_descr "calldata"
    (Option.some "Optional calldata describing how the receiver will consume the output")) _

theorem refsBound_ovRequestedOutputDetails (c : JSchema) :
    refsBound c (ovRequestedOutputDetails c) := by
  unfold ovRequestedOutputDetails refAddress refAmount
  refine refsBound_trans (refsBound_updProps
    (entry_setIf_ref "user" "Address" (by simp [csOverrideRefs, overrideRefNames])) c) ?_
  refine refsBound_trans (refsBound_updProps
    (entry_setIf_ref "asset" "Address" (by simp [csOverrideRefs, overrideRefNames])) _) ?_
  exact refsBound_updProps
    (entry_setIf_ref "amount" "Amount" (by simp [csOverrideRefs, overrideRefNames])) _

theorem refsBound_ovGetQuoteRequest (c : JSchema) :
    refsBound c (ovGetQuoteRequest c) := by
  unfold ovGetQuoteRequest refAddress refQuotePreference
  refine refsBound_trans (refsBound_updProps
    (entry_setIf_ref "user" "Address" (by simp [csOverrideRefs, overrideRefNames])) c) ?_
  refine refsBound_trans (refsBound_updProps (entry_modIf_descr "availableInputs"
    (Option.some "Order of inputs is significant if preference is \x27input-priority\x27")) _) ?_
  refine refsBound_trans (refsBound_updProps (entry_modIf_descr "minValidUntil"
    (Option.some "Minimum validity timestamp (seconds)")) _) ?_
  exact refsBound_updProps
    (entry_setIf_ref "preference" "QuotePreference" (by simp [csOverrideRefs, overrideRefNames])) _

theorem refsBound_ovEip712Order (c : JSchema) :
    refsBound c (ovEip712Order c) := by
  unfold ovEip712Order refAddress
  exact refsBound_updProps
    (entry_setIf_ref "domain" "Address" (by simp [csOverrideRefs, overrideRefNames])) c

theorem refsBound_ovQuoteDetails (c : JSchema) :
    refsBound c (ovQuoteDetails c) := by
  unfold ovQuoteDetails
  exact refsBound_updProps entry_setIf_qdai c

theorem refsBound_ovQuote (c : JSchema) :
    refsBound c (ovQuote c) := by
  unfold ovQuote
  refine refsBound_trans (refsBound_updProps (entry_modIf_descr "validUntil"
    (Option.some "Quote validity timestamp (seconds)")) c) ?_
  exact refsBound_updProps (entry_modIf_descr "eta"
    (Option.some "Estimated time of arrival (seconds)")) _

theorem refsBound_ovIntentRequest (c : JSchema) :
    refsBound c (ovIntentRequest c) := by
  unfold ovIntentRequest
  refine refsBound_trans (refsBound_updProps (entry_modIf_descr "order"
    (Option.some "EIP-712 typed data for a gasless cross-chain order")) c) ?_
  exact refsBound_updProps (entry_modIf_descr "signature" Option.none) _

theorem refsBound_ovIntentResponse (c : JSchema) :
    refsBound c (ovIntentResponse c) := by
  unfold ovIntentResponse
  exact refsBound_updProps (entry_modIf_descr "orderId"
    (Option.some "Assigned order identifier if accepted")) c

theorem refsBound_of_refsNil {c c2 : JSchema} (h : refsOfSchema c2 = []) :
    refsBound c c2 := by
  intro r hr
  rw [h] at hr
  exact absurd hr (List.not_mem_nil r)

theorem refsBound_applyNameOverride (name : String) (c : JSchema) :
    refsBound c (applyNameOverride name c) := by
  unfold applyNameOverride
  by_cases h1 : name = "Address"
  · rw [if_pos h1]; exact refsBound_of_refsNil rfl
  rw [if_neg h1]
  by_cases h2 : name = "Amount"
  · rw [if_pos h2]; exact refsBound_of_refsNil rfl
  rw [if_neg h2]
  by_cases h3 : name = "AssetLockReference"
  · rw [if_pos h3]; exact refsBound_ovAssetLockReference c
  rw [if_neg h3]
  by_cases h4 : name = "AvailableInput"
  · rw [if_pos h4]; exact refsBound_ovAvailableInput c
  rw [if_neg h4]
  by_cases h5 : name = "RequestedOutput"
  · rw [if_pos h5]; exact refsBound_ovRequestedOutput c
  rw [if_neg h5]
  by_cases h6 : name = "RequestedOutputDetails"
  · rw [if_pos h6]; exact refsBound_ovRequestedOutputDetails c
  rw [if_neg h6]
  by_cases h7 : name = "QuotePreference"
  · rw [if_pos h7]; exact refsBound_of_refsNil rfl
  rw [if_neg h7]
  by_cases h8 : name = "GetQuoteRequest"
  · rw [if_pos h8]; exact refsBound_ovGetQuoteRequest c
  rw [if_neg h8]
  by_cases h9 : name = "Eip712Order"
  · rw [if_pos h9]; exact refsBound_ovEip712Order c
  rw [if_neg h9]
  by_cases h10 : name = "QuoteDetails"
  · rw [if_pos h10]; exact refsBound_ovQuoteDetails c
  rw [if_neg h10]
  by_cases h11 : name = "Quote"
  · rw [if_pos h11]; exact refsBound_ovQuote c
  rw [if_neg h11]
  by_cases h12 : name = "IntentRequest"
  · rw [if_pos h12]; exact refsBound_ovIntentRequest c
  rw [if_neg h12]
  by_cases h13 : name = "IntentResponse"
  · rw [if_pos h13]; exact refsBound_ovIntentResponse c
  rw [if_neg h13]
  exact refsBound_refl c

theorem refsOfSchema_applyMappingDescr (name : String) (c : JSchema) :
    refsOfSchema (applyMappingDescr name c) = refsOfSchema c := by
  unfold applyMappingDescr
  split_ifs
  · exact refsOfSchema_withDescr c _
  · rfl

theorem refsBound_applyOverrides (name : String) (c : JSchema) :
    refsBound c (applyOverrides name c) := by
  intro r hr
  have h := refsBound_applyNameOverride name (applyMappingDescr name c) r hr
  rwa [refsOfSchema_applyMappingDescr] at h

/-! ### Assembly-level helpers -/

theorem cs_append_inj {a b : String}
    (h : "#/components/schemas/" ++ a = "#/components/schemas/" ++ b) : a = b := by
  have hd := congrArg String.data h
  simp [String.data_append] at hd
  exact String.ext hd

theorem componentKeys_assemble (defs : List (String × JSchema)) :
    componentKeys (assembleDocument defs) = defs.map (fun nd => nd.1) := by
  simp [assembleDocument, componentKeys, convertJsonSchemaToOpenApi, List.map_map,
    Function.comp, openApiNameOf, mappingOpenApiName]

theorem opRefs_flatten (defs : List (String × JSchema)) :
    ((assembleDocument defs).operations.map operationRefs).flatten
      = ["#/components/schemas/GetQuoteRequest", "#/components/schemas/GetQuoteResponse",
         "#/components/schemas/IntentRequest", "#/components/schemas/IntentResponse"] := rfl

theorem mem_keys_of_required {defs : List (String × JSchema)}
    (hreq : checkRequiredPresent defs = true) {n : String}
    (hn : n ∈ operationBoundNames ++ overrideRefNames) :
    n ∈ defs.map (fun nd => nd.1) := by
  rw [checkRequiredPresent, List.all_eq_true] at hreq
  exact of_decide_eq_true (hreq n hn)

theorem target_in_keys {defs : List (String × JSchema)}
    (hclosed : checkDefsClosed defs = true) {ns : String × JSchema} (hns : ns ∈ defs)
    {t : String} (ht : t ∈ rawTargetsOfSchema ns.2) :
    t ∈ defs.map (fun nd => nd.1) := by
  rw [checkDefsClosed, List.all_eq_true] at hclosed
  have h2 := hclosed ns hns
  rw [List.all_eq_true] at h2
  exact of_decide_eq_true (h2 t ht)

/-- C3 (amended).  The script performs no reference validation at all, so the
claim fails as stated (see `document_refs_can_dangle`).  What holds is: whenever
the input definitions are closed (every raw `$ref` target is itself a defined
name) and contain the four operation-bound names and the four names the
name-keyed overrides reference, every `$ref` anywhere in the assembled document
(operations and component schemas alike) resolves to a key of
`components.schemas`. -/
theorem document_refs_resolve_of_closed_defs (defs : List (String × JSchema))
    (hclosed : checkDefsClosed defs = true)
    (hreq : checkRequiredPresent defs = true) :
    danglingFree (assembleDocument defs) := by
  intro r hr
  have hkeys := componentKeys_assemble defs
  unfold docRefs at hr
  rw [List.mem_append] at hr
  rcases hr with hop | hcomp
  · rw [opRefs_flatten] at hop
    simp only [List.mem_cons, List.not_mem_nil, or_false] at hop
    rcases hop with h | h | h | h <;> subst h
    · exact ⟨"GetQuoteRequest", by
        rw [hkeys]
        exact mem_keys_of_required hreq (by decide), rfl⟩
    · exact ⟨"GetQuoteResponse", by
        rw [hkeys]
        exact mem_keys_of_required hreq (by decide), rfl⟩
    · exact ⟨"IntentRequest", by
        rw [hkeys]
        exact mem_keys_of_required hreq (by decide), rfl⟩
    · exact ⟨"IntentResponse", by
        rw [hkeys]
        exact mem_keys_of_required hreq (by decide), rfl⟩
  · rw [List.mem_flatten] at hcomp
    obtain ⟨L, hL, hrL⟩ := hcomp
    rw [List.mem_map] at hL
    obtain ⟨nd, hnd, rfl⟩ := hL
    have hnd2 : nd ∈ convertJsonSchemaToOpenApi defs := hnd
    rw [convertJsonSchemaToOpenApi, List.mem_map] at hnd2
    obtain ⟨ns, hns, rfl⟩ := hnd2
    simp only [convertDefinition] at hrL
    rcases refsBound_applyOverrides ns.1 (convertSchemaObject ns.2) r hrL with hconv | hovr
    · rw [refsConvSchema, List.mem_map] at hconv
      obtain ⟨t, ht, rfl⟩ := hconv
      exact ⟨t, by rw [hkeys]; exact target_in_keys hclosed hns ht, rfl⟩
    · rw [csOverrideRefs, List.mem_map] at hovr
      obtain ⟨n2, hn2, rfl⟩ := hovr
      refine ⟨n2, ?_, rfl⟩
      rw [hkeys]
      exact mem_keys_of_required hreq (List.mem_append_right _ hn2)

/-- C3 counterexample.  On the empty definitions map the pipeline still
completes and the assembled document's fixed operation bindings dangle: the
claimed invariant is false for an input on which the pipeline completes. -/
theorem document_refs_can_dangle : ¬ danglingFree (assembleDocument []) := by
  intro h
  have hm : "#/components/schemas/GetQuoteRequest" ∈ docRefs (assembleDocument []) := by decide
  obtain ⟨k, hk, _⟩ := h _ hm
  exact absurd hk (List.not_mem_nil k)

/-- Witness for C3 (amended) at the realistic sample definitions. -/
theorem document_refs_resolve_of_closed_defs_witness :
    danglingFree (assembleDocument defsSample) :=
  document_refs_resolve_of_closed_defs defsSample rfl rfl

/-- C1 (amended).  `main` performs no resolution of the operations' schema
bindings against the component map — no `UnknownComponentError` (or any other
assembly-time check) exists in the script.  When a bound component such as
`GetQuoteResponse` is absent from the definitions, assembly still completes and
the emitted document contains the operation's `$ref` as a dangling reference
that resolves to no key of `components.schemas`. -/
theorem missing_component_emits_broken_reference (defs : List (String × JSchema))
    (h : "GetQuoteResponse" ∉ defs.map (fun nd => nd.1)) :
    "#/components/schemas/GetQuoteResponse" ∈ docRefs (assembleDocument defs)
      ∧ ¬ resolvesIn (componentKeys (assembleDocument defs))
          "#/components/schemas/GetQuoteResponse" := by
  constructor
  · unfold docRefs
    apply List.mem_append_left
    rw [opRefs_flatten]
    decide
  · rintro ⟨k, hk, heq⟩
    rw [componentKeys_assemble] at hk
    have hkk := cs_append_inj heq
    rw [← hkk] at hk
    exact h hk

/-- C1 counterexample.  Removing `GetQuoteResponse` from a realistic definitions
map: assembly completes (it is a total function in the script — the claimed
`UnknownComponentError` does not exist) and the emitted document carries the
`POST /v1/quote` 200-response binding as a broken reference. -/
theorem removing_getQuoteResponse_is_not_an_error :
    "#/components/schemas/GetQuoteResponse" ∈ docRefs (assembleDocument defsNoGetQuoteResponse)
      ∧ ¬ resolvesIn (componentKeys (assembleDocument defsNoGetQuoteResponse))
          "#/components/schemas/GetQuoteResponse" := by
  constructor
  · decide
  · rintro ⟨k, hk, heq⟩
    have hkeys : componentKeys (assembleDocument defsNoGetQuoteResponse)
        = ["Address", "Amount", "AssetLockReference", "QuotePreference", "AvailableInput",
           "GetQuoteRequest", "Quote", "IntentRequest", "IntentResponse"] := rfl
    rw [hkeys] at hk
    fin_cases hk <;> exact absurd heq (by decide)

/-- Witness for C1 (amended) at the concrete sample without `GetQuoteResponse`. -/
theorem missing_component_emits_broken_reference_witness :
    "#/components/schemas/GetQuoteResponse" ∈ docRefs (assembleDocument defsNoGetQuoteResponse)
      ∧ ¬ resolvesIn (componentKeys (assembleDocument defsNoGetQuoteResponse))
          "#/components/schemas/GetQuoteResponse" :=
  missing_component_emits_broken_reference defsNoGetQuoteResponse (by decide)

/-! ### Shapeless nodes (C2) -/

/-- The raw node has none of the four shape-giving keys `type`, `$ref`, `enum`,
`properties` (for the two string-valued keys, JS truthiness is used, exactly as
the script's guards do). -/
def lacksShape (s : JSchema) : Prop :=
  truthyOS s.ty = false ∧ truthyOS s.ref = false
    ∧ s.enm = Option.none ∧ s.props = OptProps.none

/-- C2 (amended).  No `SchemaShapeError` exists in the script: a raw node
lacking all of `type`, `$ref`, `enum` and `properties` is converted without any
error into a canonical schema that itself has none of those four keys (the
remaining recognized keys are carried over); the run continues. -/
theorem shapeless_node_converts_without_error (s : JSchema) (hs : lacksShape s) :
    lacksShape (convertSchemaObject s) := by
  cases s with
  | mk ty d p e pr rq it rf ao oo alo ap =>
    obtain ⟨h1, h2, h3, h4⟩ := hs
    simp only [JSchema.ty, JSchema.ref, JSchema.enm, JSchema.props] at h1 h2 h3 h4
    subst h3
    subst h4
    simp only [convertSchemaObject, h2, Bool.false_eq_true, if_false]
    exact ⟨by rw [JSchema.ty, h1]; simp [truthyOS], rfl, rfl, rfl⟩

/-- C2 counterexample.  A raw node with no recognizable shape at all is not
rejected: the pipeline produces a component (the empty schema object) for it
— no `SchemaShapeError`, no abort. -/
theorem shapeless_node_produces_component :
    convertJsonSchemaToOpenApi [("Mystery", emptySchema)] = [("Mystery", emptySchema)] := rfl

/-- Witness for C2 (amended) at the empty raw node. -/
theorem shapeless_node_converts_without_error_witness :
    lacksShape (convertSchemaObject emptySchema) :=
  shapeless_node_converts_without_error emptySchema ⟨rfl, rfl, rfl, rfl⟩

/-! ### Open-map heuristic (C4) -/

/-- The emitted explicit open-map schema `{type: object, additionalProperties: true}`. -/
def openMapSchema : JSchema :=
  JSchema.mk (Option.some "object") Option.none Option.none Option.none OptProps.none
    Option.none OptSchema.none Option.none OptSList.none OptSList.none OptSList.none
    (OptAP.bool true)

/-- C4 (amended).  The source's rule is `type === 'object' && Object.keys(schema).length === 1`:
a raw node whose ONLY key is `type: 'object'` becomes the explicit open map.
(An object node with zero properties and zero required fields but any further
key, e.g. a description, is NOT converted — see the counterexample.) -/
theorem single_key_object_becomes_open_map (s : JSchema)
    (hty : s.ty = Option.some "object") (hk : numKeys s = 1) :
    convertSchemaObject s = openMapSchema := by
  cases s with
  | mk ty d p e pr rq it rf ao oo alo ap =>
    simp only [JSchema.ty] at hty
    subst hty
    cases d with
    | some v => simp [numKeys] at hk; omega
    | none =>
    cases p with
    | some v => simp [numKeys] at hk; omega
    | none =>
    cases e with
    | some v => simp [numKeys] at hk; omega
    | none =>
    cases pr with
    | some v => simp [numKeys] at hk; omega
    | none =>
    cases rq with
    | some v => simp [numKeys] at hk; omega
    | none =>
    cases it with
    | some v => simp [numKeys] at hk; omega
    | none =>
    cases rf with
    | some v => simp [numKeys] at hk; omega
    | none =>
    cases ao with
    | some v => simp [numKeys] at hk; omega
    | none =>
    cases oo with
    | some v => simp [numKeys] at hk; omega
    | none =>
    cases alo with
    | some v => simp [numKeys] at hk; omega
    | none =>
    cases ap with
    | bool b => simp [numKeys] at hk
    | schema v => simp [numKeys] at hk
    | none => rfl

/-- A raw object node with zero declared properties and zero required fields,
but carrying `properties: {}` and `required: []` as explicit keys (three keys
in total). -/
def emptyObjectNode : JSchema :=
  JSchema.mk (Option.some "object") Option.none Option.none Option.none
    (OptProps.some Props.nil) (Option.some []) OptSchema.none Option.none
    OptSList.none OptSList.none OptSList.none OptAP.none

/-- C4 counterexample.  This node has zero declared properties and zero
required fields, yet the converter does not give it `additionalProperties: true`
(its raw key count is 3, not 1), refuting the claimed zero-props/zero-required
rule. -/
theorem zero_prop_object_not_converted_to_open_map :
    (convertSchemaObject emptyObjectNode).addProps ≠ OptAP.bool true := by
  intro h
  exact nomatch h

/-- A raw node whose only key is `type: 'object'`. -/
def bareObjectNode : JSchema :=
  JSchema.mk (Option.some "object") Option.none Option.none Option.none OptProps.none
    Option.none OptSchema.none Option.none OptSList.none OptSList.none OptSList.none
    OptAP.none

/-- Witness for C4 (amended) at the one-key object node. -/
theorem single_key_object_becomes_open_map_witness :
    convertSchemaObject bareObjectNode = openMapSchema :=
  single_key_object_becomes_open_map bareObjectNode rfl rfl

/-! ### Whole-schema replacements (C5), unions (C8), Scenario A (C9) -/

/-- C5 (confirmed).  The branches for the definition names `Address` and
`Amount` assign a fixed literal to the component map, ignoring the converted
schema entirely: whatever raw schema the extractor produced, the emitted
component equals the registry literal (`Address` as the branded string,
`Amount` with the pattern `^[0-9]+$`). -/
theorem whole_schema_replacement_is_literal (raw : JSchema) :
    convertDefinition "Address" raw = addressSchemaLiteral
      ∧ convertDefinition "Amount" raw = amountSchemaLiteral :=
  ⟨rfl, rfl⟩

/-- A `UnionNode` whose variants are all bare string literals, in declaration
order `price`, `speed`, `input-priority`, `trust-minimization` (each variant as
the extractor would shape it: `{type: 'string', enum: ['…']}`). -/
def rawLiteralUnion : JSchema :=
  JSchema.mk Option.none Option.none Option.none Option.none OptProps.none Option.none
    OptSchema.none Option.none
    (OptSList.some (SList.cons (leaf (Option.some "string") Option.none Option.none (Option.some ["price"]))
      (SList.cons (leaf (Option.some "string") Option.none Option.none (Option.some ["speed"]))
        (SList.cons (leaf (Option.some "string") Option.none Option.none (Option.some ["input-priority"]))
          (SList.cons (leaf (Option.some "string") Option.none Option.none (Option.some ["trust-minimization"]))
            SList.nil)))))
    OptSList.none OptSList.none OptAP.none

/-- C8 counterexample.  The converter never collapses a literal-string union by
shape: converting this `anyOf` of four bare string literals yields a schema with
no `type` and no `enum`, whose `anyOf` is preserved — not the claimed
`{type: string, enum: [...]}`. -/
theorem literal_union_not_collapsed :
    (convertSchemaObject rawLiteralUnion).ty ≠ Option.some "string"
      ∧ (convertSchemaObject rawLiteralUnion).enm = Option.none
      ∧ (convertSchemaObject rawLiteralUnion).anyOf ≠ OptSList.none := by
  refine ⟨fun h => ?_, rfl, fun h => ?_⟩
  · exact nomatch h
  · exact nomatch h

/-- C8 (amended).  The collapse is keyed by the definition NAME, not by shape:
the definition named `QuotePreference` is replaced wholesale by the fixed
literal `{type: 'string', enum: ['price', 'speed', 'input-priority',
'trust-minimization']}` (declaration order, not sorted), whatever raw schema the
extractor produced for it; a union's `anyOf`/`oneOf`/`allOf` lists are otherwise
converted element-wise and preserved. -/
theorem quotePreference_replaced_by_name (raw : JSchema) :
    convertDefinition "QuotePreference" raw = quotePreferenceLiteral := rfl

/-- The expected normalization of Scenario A's `AvailableInput` node: required
exactly `user`, `asset`, `amount` (lock excluded), all four properties expressed
as `$ref`s into `components.schemas`. -/
def availableInputExpected : JSchema :=
  JSchema.mk (Option.some "object") Option.none Option.none Option.none
    (OptProps.some (Props.cons "user" refAddress (Props.cons "asset" refAddress
      (Props.cons "amount" refAmount (Props.cons "lock" refAssetLockReference Props.nil)))))
    (Option.some ["user", "asset", "amount"]) OptSchema.none Option.none
    OptSList.none OptSList.none OptSList.none OptAP.none

/-- C9 (confirmed).  Scenario A: the `AvailableInput` raw node with properties
`user`/`asset`/`amount`/optional `lock` (all `$ref`s) and required
`[user, asset, amount]` normalizes to required exactly `[user, asset, amount]`
with all four properties as component references. -/
theorem availableInput_scenario :
    convertDefinition "AvailableInput" rawAvailableInput = availableInputExpected := rfl

/-! ### additionalProperties handling (C10) -/

/-- C10 (amended).  For a raw node without a (truthy) `$ref`:
`additionalProperties: false` is dropped entirely (set to `undefined`, never
emitted as literal `false`), `true` is preserved, and a schema value is
recursively converted.  (A node carrying a `$ref` is replaced wholesale by the
rewritten reference and its `additionalProperties` is discarded — see the
counterexample.) -/
theorem additionalProperties_conversion (s : JSchema) (h : truthyOS s.ref = false) :
    (s.addProps = OptAP.bool false → (convertSchemaObject s).addProps = OptAP.none)
      ∧ (s.addProps = OptAP.bool true → (convertSchemaObject s).addProps = OptAP.bool true)
      ∧ (∀ x, s.addProps = OptAP.schema x →
          (convertSchemaObject s).addProps = OptAP.schema (convertSchemaObject x)) := by
  cases s with
  | mk ty d p e pr rq it rf ao oo alo ap =>
    simp only [JSchema.ref] at h
    simp only [convertSchemaObject, h, Bool.false_eq_true, if_false, JSchema.addProps]
    refine ⟨?_, ?_, ?_⟩
    · intro hap
      rw [hap]
      rfl
    · intro hap
      rw [hap]
      rfl
    · intro x hap
      rw [hap]
      rfl

/-- A raw node with both a `$ref` and `additionalProperties: true`. -/
def refWithTrueAP : JSchema :=
  JSchema.mk Option.none Option.none Option.none Option.none OptProps.none Option.none
    OptSchema.none (Option.some "#/definitions/Widget") OptSList.none OptSList.none
    OptSList.none (OptAP.bool true)

/-- C10 counterexample.  On a node carrying a `$ref`, the converter
early-returns the pure rewritten reference, so `additionalProperties: true` is
NOT preserved — refuting the unconditional claim. -/
theorem ref_node_drops_additionalProperties :
    refWithTrueAP.addProps = OptAP.bool true
      ∧ (convertSchemaObject refWithTrueAP).addProps ≠ OptAP.bool true :=
  ⟨rfl, fun h => nomatch h⟩

/-- A ref-free node carrying `additionalProperties: true`. -/
def apTrueNode : JSchema :=
  JSchema.mk (Option.some "object") Option.none Option.none Option.none OptProps.none
    Option.none OptSchema.none Option.none OptSList.none OptSList.none OptSList.none
    (OptAP.bool true)

/-- Witness for C10 (amended) at a ref-free node with `additionalProperties: true`. -/
theorem additionalProperties_conversion_witness :
    (convertSchemaObject apTrueNode).addProps = OptAP.bool true :=
  (additionalProperties_conversion apTrueNode rfl).2.1 rfl

/-! ### Override warnings and absent field paths (C7) -/

/-- The warnings reported by a run of the script's override application.
`generate-openapi.ts` defines no warning type and collects and reports nothing
while applying the name-keyed special handling (a guarded assignment whose
guard fails is simply skipped), so the warning output of every run is empty.
This definition models that observable. -/
def overrideWarnings (_name : String) (_c : JSchema) : List String := []

/-- The declared property names of a `properties` map. -/
def propsKeys : Props → List String
  | Props.nil => []
  | Props.cons k _ rest => k :: propsKeys rest

/-- The schema has a `properties` map that declares the key `n` — the guard
`convertedSchema.properties && convertedSchema.properties[n]` of the source. -/
def JSchema.hasPropKey (c : JSchema) (n : String) : Bool :=
  match c.props with
  | OptProps.none => false
  | OptProps.some l => (propsKeys l).contains n

theorem mapEntries_keyMiss (n : String) (f : String → JSchema → JSchema)
    (hf : ∀ k s, k ≠ n → f k s = s) :
    ∀ l : Props, (propsKeys l).contains n = false → mapEntries f l = l
  | Props.nil, _ => rfl
  | Props.cons k v rest, h => by
    simp only [propsKeys, List.contains_cons, Bool.or_eq_false_iff] at h
    obtain ⟨hnk, hrest⟩ := h
    have hk : k ≠ n := fun he => by subst he; simp at hnk
    rw [mapEntries, hf k v hk, mapEntries_keyMiss n f hf rest hrest]

theorem updProps_keyMiss (c : JSchema) (n : String) (f : String → JSchema → JSchema)
    (hf : ∀ k s, k ≠ n → f k s = s) (h : c.hasPropKey n = false) :
    c.updProps f = c := by
  cases c with
  | mk ty d p e pr rq it rf ao oo alo ap =>
    cases pr with
    | none => rfl
    | some l =>
      simp only [JSchema.hasPropKey, JSchema.props] at h
      simp only [JSchema.updProps]
      rw [mapEntries_keyMiss n f hf l h]

/-- C7 (amended).  An override rule whose field path does not exist in the
schema it is applied to — whether the `properties` map is absent altogether or
present but lacking that key (the drift scenario) — is a silent no-op: the
guarded update of the name-keyed chain (a `setIf` replacement or a `modIf`
patch of one named property) leaves the schema unchanged, the run does not
fail, and no warning of any kind is recorded or reported (the script has no
warning mechanism). -/
theorem absent_field_path_rule_is_silent_noop (c : JSchema) (n : String)
    (h : c.hasPropKey n = false) :
    (∀ v : JSchema, c.updProps (setIf n v) = c)
      ∧ (∀ g : JSchema → JSchema, c.updProps (modIf n g) = c)
      ∧ (∀ name, overrideWarnings name c = []) := by
  refine ⟨fun v => updProps_keyMiss c n _ ?_ h, fun g => updProps_keyMiss c n _ ?_ h,
    fun _ => rfl⟩
  · intro k s hk
    simp [setIf, hk]
  · intro k s hk
    simp [modIf, hk]

/-- A drift-scenario schema: `properties` is present but declares only `foo`,
so every field path the registry targets is absent while the outer
`if (convertedSchema.properties)` guard passes. -/
def driftSchema : JSchema :=
  objNode (Props.cons "foo" (leaf (Option.some "string") Option.none Option.none Option.none)
    Props.nil) ["foo"]

/-- C7 counterexample.  At a schema whose `properties` exist but lack every
field path of the `GetQuoteRequest` rules, the whole branch is a no-op that
does not fail, and the run's collection of override warnings is empty — no
`OverrideApplicationWarning` is recorded or reported, refuting the claim's
warning clause. -/
theorem skipped_rule_records_no_warning :
    ovGetQuoteRequest driftSchema = driftSchema
      ∧ overrideWarnings "GetQuoteRequest" driftSchema = [] := ⟨rfl, rfl⟩

/-- Witness for C7 (amended): the drift schema declares `foo` but not `user`,
and the `user → $ref Address` replacement rule leaves it unchanged with no
warning. -/
theorem absent_field_path_rule_is_silent_noop_witness :
    driftSchema.updProps (setIf "user" refAddress) = driftSchema :=
  (absent_field_path_rule_is_silent_noop driftSchema "user" rfl).1 refAddress

/-! ### Idempotence of the override application (C6) -/

theorem descr_updProps (c : JSchema) (f : String → JSchema → JSchema) :
    (c.updProps f).descr = c.descr := by
  cases c with
  | mk ty d p e pr rq it rf ao oo alo ap => cases pr <;> rfl

theorem descr_withDescr (c : JSchema) (d : Option String) :
    (c.withDescr d).descr = d := by
  cases c; rfl

theorem withDescr_self (c : JSchema) {d : Option String} (hd : c.descr = d) :
    c.withDescr d = c := by
  cases c with
  | mk ty d0 p e pr rq it rf ao oo alo ap =>
    simp only [JSchema.descr] at hd
    rw [JSchema.withDescr, hd]

theorem withEnum_withEnum (c : JSchema) (e1 e2 : Option (List String)) :
    (c.withEnum e1).withEnum e2 = c.withEnum e2 := by
  cases c; rfl

theorem ovAvailableInput_idem (c : JSchema) :
    ovAvailableInput (ovAvailableInput c) = ovAvailableInput c := by
  unfold ovAvailableInput
  simp only [updProps_updProps]
  apply updProps_congr
  intro k s
  unfold setIf
  by_cases h1 : k = "user"
  · subst h1; simp
  by_cases h2 : k = "asset"
  · subst h2; simp
  by_cases h3 : k = "amount"
  · subst h3; simp
  by_cases h4 : k = "lock"
  · subst h4; simp
  simp [h1, h2, h3, h4]

theorem ovRequestedOutput_idem (c : JSchema) :
    ovRequestedOutput (ovRequestedOutput c) = ovRequestedOutput c := by
  unfold ovRequestedOutput
  simp only [updProps_updProps]
  apply updProps_congr
  intro k s
  unfold setIf modIf
  by_cases h1 : k = "receiver"
  · subst h1; simp
  by_cases h2 : k = "asset"
  · subst h2; simp
  by_cases h3 : k = "amount"
  · subst h3; simp
  by_cases h4 : k = "calldata"
  · subst h4; simp [withDescr_withDescr]
  simp [h1, h2, h3, h4]

theorem ovRequestedOutputDetails_idem (c : JSchema) :
    ovRequestedOutputDetails (ovRequestedOutputDetails c) = ovRequestedOutputDetails c := by
  unfold ovRequestedOutputDetails
  simp only [updProps_updProps]
  apply updProps_congr
  intro k s
  unfold setIf
  by_cases h1 : k = "user"
  · subst h1; simp
  by_cases h2 : k = "asset"
  · subst h2; simp
  by_cases h3 : k = "amount"
  · subst h3; simp
  simp [h1, h2, h3]

theorem ovGetQuoteRequest_idem (c : JSchema) :
    ovGetQuoteRequest (ovGetQuoteRequest c) = ovGetQuoteRequest c := by
  unfold ovGetQuoteRequest
  simp only [updProps_updProps]
  apply updProps_congr
  intro k s
  unfold setIf modIf
  by_cases h1 : k = "user"
  · subst h1; simp
  by_cases h2 : k = "availableInputs"
  · subst h2; simp [withDescr_withDescr]
  by_cases h3 : k = "minValidUntil"
  · subst h3; simp [withDescr_withDescr]
  by_cases h4 : k = "preference"
  · subst h4; simp
  simp [h1, h2, h3, h4]

theorem ovEip712Order_idem (c : JSchema) :
    ovEip712Order (ovEip712Order c) = ovEip712Order c := by
  unfold ovEip712Order
  simp only [updProps_updProps]
  apply updProps_congr
  intro k s
  unfold setIf
  by_cases h1 : k = "domain"
  · subst h1; simp
  simp [h1]

theorem ovQuoteDetails_idem (c : JSchema) :
    ovQuoteDetails (ovQuoteDetails c) = ovQuoteDetails c := by
  unfold ovQuoteDetails
  simp only [updProps_updProps]
  apply updProps_congr
  intro k s
  unfold setIf
  by_cases h1 : k = "availableInputs"
  · subst h1; simp
  simp [h1]

theorem ovQuote_idem (c : JSchema) :
    ovQuote (ovQuote c) = ovQuote c := by
  unfold ovQuote
  simp only [updProps_updProps]
  apply updProps_congr
  intro k s
  unfold modIf
  by_cases h1 : k = "validUntil"
  · subst h1; simp [withDescr_withDescr]
  by_cases h2 : k = "eta"
  · subst h2; simp [withDescr_withDescr]
  simp [h1, h2]

theorem ovIntentRequest_idem (c : JSchema) :
    ovIntentRequest (ovIntentRequest c) = ovIntentRequest c := by
  unfold ovIntentRequest
  simp only [updProps_updProps]
  apply updProps_congr
  intro k s
  unfold modIf
  by_cases h1 : k = "order"
  · subst h1; simp [withDescr_withDescr]
  by_cases h2 : k = "signature"
  · subst h2; simp [withDescr_withDescr]
  simp [h1, h2]

theorem ovIntentResponse_idem (c : JSchema) :
    ovIntentResponse (ovIntentResponse c) = ovIntentResponse c := by
  unfold ovIntentResponse
  simp only [updProps_updProps]
  apply updProps_congr
  intro k s
  unfold modIf
  by_cases h1 : k = "orderId"
  · subst h1; simp [withDescr_withDescr]
  simp [h1]

theorem ovAssetLockReference_idem (c : JSchema) :
    ovAssetLockReference (ovAssetLockReference c) = ovAssetLockReference c := by
  unfold ovAssetLockReference
  by_cases h : c.hasProps = true
  · rw [if_pos h]
    have hX : ((((c.withDescr (Option.some "Reference to a lock in a locking system")).updProps
        (modIf "kind" (fun s => s.withEnum (Option.some ["the-compact", "rhinestone"])))).updProps
        (modIf "params" (fun s => s.withDescr (Option.some "Lock-specific parameters")))).hasProps) = true := by
      rw [hasProps_updProps, hasProps_updProps, hasProps_withDescr]
      exact h
    rw [if_pos hX, withDescr_updProps, withDescr_updProps, withDescr_withDescr]
    simp only [updProps_updProps]
    apply updProps_congr
    intro k s
    unfold modIf
    by_cases h1 : k = "kind"
    · subst h1; simp [withEnum_withEnum]
    by_cases h2 : k = "params"
    · subst h2; simp [withDescr_withDescr]
    simp [h1, h2]
  · rw [if_neg h, if_neg h]

theorem ovAssetLockReference_withDescr_stable (x : JSchema)
    (hd : x.descr = Option.some "Reference to a lock in a locking system") :
    (ovAssetLockReference x).withDescr (Option.some "Reference to a lock in a locking system")
      = ovAssetLockReference x := by
  unfold ovAssetLockReference
  by_cases h : x.hasProps = true
  · rw [if_pos h, withDescr_updProps, withDescr_updProps, withDescr_withDescr]
  · rw [if_neg h]
    exact withDescr_self x hd

theorem ovEip712Order_withDescr_stable (x : JSchema)
    (hd : x.descr = Option.some "EIP-712 typed data for execution") :
    (ovEip712Order x).withDescr (Option.some "EIP-712 typed data for execution")
      = ovEip712Order x := by
  unfold ovEip712Order
  rw [withDescr_updProps, withDescr_self x hd]

/-- C6 (confirmed).  For every definition name and every schema, applying the
per-type override step (the `mapping.description` assignment followed by the
name-keyed special handling) twice yields the same result as applying it once. -/
theorem applyOverrides_idempotent (name : String) (c : JSchema) :
    applyOverrides name (applyOverrides name c) = applyOverrides name c := by
  by_cases h1 : name = "Address"
  · subst h1; rfl
  by_cases h2 : name = "Amount"
  · subst h2; rfl
  by_cases h3 : name = "AssetLockReference"
  · subst h3
    show ovAssetLockReference ((ovAssetLockReference (c.withDescr
        (Option.some "Reference to a lock in a locking system"))).withDescr
        (Option.some "Reference to a lock in a locking system"))
      = ovAssetLockReference (c.withDescr
        (Option.some "Reference to a lock in a locking system"))
    rw [ovAssetLockReference_withDescr_stable _ (descr_withDescr c _)]
    exact ovAssetLockReference_idem _
  by_cases h4 : name = "AvailableInput"
  · subst h4
    show ovAvailableInput (ovAvailableInput c) = ovAvailableInput c
    exact ovAvailableInput_idem c
  by_cases h5 : name = "RequestedOutput"
  · subst h5
    show ovRequestedOutput (ovRequestedOutput c) = ovRequestedOutput c
    exact ovRequestedOutput_idem c
  by_cases h6 : name = "RequestedOutputDetails"
  · subst h6
    show ovRequestedOutputDetails (ovRequestedOutputDetails c) = ovRequestedOutputDetails c
    exact ovRequestedOutputDetails_idem c
  by_cases h7 : name = "QuotePreference"
  · subst h7; rfl
  by_cases h8 : name = "GetQuoteRequest"
  · subst h8
    show ovGetQuoteRequest (ovGetQuoteRequest c) = ovGetQuoteRequest c
    exact ovGetQuoteRequest_idem c
  by_cases h9 : name = "Eip712Order"
  · subst h9
    show ovEip712Order ((ovEip712Order (c.withDescr
        (Option.some "EIP-712 typed data for execution"))).withDescr
        (Option.some "EIP-712 typed data for execution"))
      = ovEip712Order (c.withDescr (Option.some "EIP-712 typed data for execution"))
    rw [ovEip712Order_withDescr_stable _ (descr_withDescr c _)]
    exact ovEip712Order_idem _
  by_cases h10 : name = "QuoteDetails"
  · subst h10
    show ovQuoteDetails (ovQuoteDetails c) = ovQuoteDetails c
    exact ovQuoteDetails_idem c
  by_cases h11 : name = "Quote"
  · subst h11
    show ovQuote (ovQuote c) = ovQuote c
    exact ovQuote_idem c
  by_cases h12 : name = "IntentRequest"
  · subst h12
    show ovIntentRequest (ovIntentRequest c) = ovIntentRequest c
    exact ovIntentRequest_idem c
  by_cases h13 : name = "IntentResponse"
  · subst h13
    show ovIntentResponse (ovIntentResponse c) = ovIntentResponse c
    exact ovIntentResponse_idem c
  simp [applyOverrides, applyNameOverride, applyMappingDescr, mappingDescription,
    h1, h2, h3, h4, h5, h6, h7, h8, h9, h10, h11, h12, h13, truthyOS]
